import Mathlib

/-!
Shallow embedding of the core request-time subsystems of an LLM proxy
gateway (Rust source: crates/brightstaff and crates/common), together
with proofs of the behavioural claims about admission, pipe selection,
budgeting, usage flushing, pricing, provider lookup and conversational
state.

Conventions of the embedding:
* UUIDs are modelled as strings (only equality and printing are used).
* `chrono::NaiveDate` is modelled as a year/month/day record; `Utc::now`
  becomes an explicit `today` parameter.
* The sharded `DashMap<CounterKey, AtomicI64>` is modelled as an
  association list from keys to integers; the concurrent operations of
  `counters.rs` become pure state-passing functions.
* Monetary `i64` micro-cents are `Int`; `f64` prices are `ℚ` (the claims
  under verification are about which price is chosen and the billing
  formula, not about floating-point rounding).
* Database queries are embedded as pure functions over the table rows
  they scan; fallible I/O becomes `Except`/`Bool` parameters.
-/

namespace Plano

/-- UUIDs: only identity matters for the verified claims. -/
abbrev Uuid := String

/-- Model of `chrono::NaiveDate`. -/
structure Date where
  year : Int
  month : Nat
  day : Nat
deriving DecidableEq, Repr

/-- `NaiveDate::from_ymd_opt(today.year(), today.month(), 1)`: the first
day of `today`'s month (always well-formed when `today` is). -/
def firstOfMonth (today : Date) : Date :=
  { today with day := 1 }

/-! ## String helpers mirroring the Rust `str` methods used by the source -/

/-- Split a character list at the first occurrence of `c`
(`str::splitn(2, c)` / `split_once`). -/
def splitFirstL (c : Char) : List Char → Option (List Char × List Char)
  | [] => none
  | x :: xs =>
    if x = c then some ([], xs)
    else match splitFirstL c xs with
      | none => none
      | some (a, b) => some (x :: a, b)

/-- `str::split_once(c)` on strings. -/
def splitOnceChar (c : Char) (s : String) : Option (String × String) :=
  match splitFirstL c s.data with
  | none => none
  | some (a, b) => some (String.mk a, String.mk b)

/-- `str::contains(c)`. -/
def containsChar (c : Char) (s : String) : Bool :=
  s.data.contains c

/-- `str::to_lowercase()` (ASCII-adequate for the provider names used). -/
def lowerStr (s : String) : String :=
  String.mk (s.data.map Char.toLower)

/-- `str::trim()`. -/
def trimStr (s : String) : String :=
  String.mk ((s.data.dropWhile Char.isWhitespace).reverse.dropWhile Char.isWhitespace |>.reverse)

/-- Split a character list on a separator character (`str::split(c)`). -/
def splitOnCharL (c : Char) : List Char → List (List Char)
  | [] => [[]]
  | x :: xs =>
    let rest := splitOnCharL c xs
    if x = c then [] :: rest
    else match rest with
      | [] => [[x]]
      | r :: rs => (x :: r) :: rs

/-- `str::split(c)` on strings. -/
def splitChar (c : Char) (s : String) : List String :=
  (splitOnCharL c s.data).map String.mk

/-- `str::starts_with(p)`. -/
def startsWith (p s : String) : Bool :=
  p.data.isPrefixOf s.data

/-- `str::strip_prefix(p)`: the remainder when `p` is a prefix of `s`. -/
def dropBearer (p s : String) : Option String :=
  if p.data.isPrefixOf s.data then some (String.mk (s.data.drop p.data.length)) else none

/-! ## Spending counters — `billing/counters.rs`

`SpendingCounters` is a `DashMap<CounterKey, AtomicI64>`; here an
association list with at most one entry per key (the map never stores a
key twice).  `Utc::now().date_naive()` is the explicit `today`. -/

/-- `CounterKey` of `counters.rs`. -/
structure CounterKey where
  entity_type : String
  entity_id : Uuid
  period_type : String
  period_start : Date
deriving DecidableEq, Repr

/-- The in-memory counter map: entries of the DashMap. -/
abbrev CountersState := List (CounterKey × Int)

/-- `self.counters.get(&key)` — first entry with the key. -/
def lookupKey (s : CountersState) (k : CounterKey) : Option Int :=
  match s with
  | [] => none
  | (k', v) :: rest => if k' = k then some v else lookupKey rest k

/-- `self.counters.entry(key).or_insert(0).fetch_add(v)`:
add to the existing entry, inserting a zero entry first when absent. -/
def addToKey (s : CountersState) (k : CounterKey) (v : Int) : CountersState :=
  match s with
  | [] => [(k, v)]
  | (k', v') :: rest =>
    if k' = k then (k', v' + v) :: rest else (k', v') :: addToKey rest k v

/-- The `period_start` computed by `check_budget` (line 39-43): `daily` →
today, `monthly` → first of month, anything else short-circuits. -/
def checkPeriodStart (period_type : String) (today : Date) : Option Date :=
  if period_type = "daily" then some today
  else if period_type = "monthly" then some (firstOfMonth today)
  else none

/-- The `period_start` computed by `record_usage` and `get_current`
(lines 66-71, 89-94): the catch-all arm files under today. -/
def recordPeriodStart (period_type : String) (today : Date) : Date :=
  if period_type = "daily" then today
  else if period_type = "monthly" then firstOfMonth today
  else today

/-- `SpendingCounters::check_budget` (counters.rs lines 31-56). Returns
`true` when within budget. -/
def checkBudget (s : CountersState) (entity_type : String) (entity_id : Uuid)
    (period_type : String) (limit_micro_cents : Int) (today : Date) : Bool :=
  match checkPeriodStart period_type today with
  | none => true
  | some period_start =>
    let key : CounterKey := ⟨entity_type, entity_id, period_type, period_start⟩
    match lookupKey s key with
    | some v => v < limit_micro_cents
    | none => true

/-- `SpendingCounters::record_usage` (lines 59-85), returning the
updated map (the returned running total is not used by any claim). -/
def recordUsage (s : CountersState) (entity_type : String) (entity_id : Uuid)
    (period_type : String) (micro_cents : Int) (today : Date) : CountersState :=
  let key : CounterKey :=
    ⟨entity_type, entity_id, period_type, recordPeriodStart period_type today⟩
  addToKey s key micro_cents

/-- `SpendingCounters::get_current` (lines 88-107). -/
def getCurrent (s : CountersState) (entity_type : String) (entity_id : Uuid)
    (period_type : String) (today : Date) : Int :=
  let key : CounterKey :=
    ⟨entity_type, entity_id, period_type, recordPeriodStart period_type today⟩
  (lookupKey s key).getD 0

/-- `SpendingCounters::hydrate` (lines 110-123). -/
def hydrate (s : CountersState)
    (records : List (String × Uuid × String × Date × Int)) : CountersState :=
  records.foldl
    (fun acc r =>
      let (entity_type, entity_id, period_type, period_start, spent) := r
      addToKey acc ⟨entity_type, entity_id, period_type, period_start⟩ spent)
    s

/-- `SpendingCounters::snapshot_and_reset` (lines 127-136): every entry
is swapped to 0; entries whose value was `> 0` are emitted as deltas. -/
def snapshotAndReset (s : CountersState) : CountersState × List (CounterKey × Int) :=
  (s.map (fun kv => (kv.1, (0 : Int))),
   s.filter (fun kv => 0 < kv.2))

/-- `SpendingCounters::restore_deltas` (lines 139-146). -/
def restoreDeltas (s : CountersState) (deltas : List (CounterKey × Int)) : CountersState :=
  deltas.foldl (fun acc kv => addToKey acc kv.1 kv.2) s

/-! ## Pipe selection — `auth/pipe_selector.rs` and `auth/token_resolver.rs` -/

/-- `PipeInfo` of `db/queries.rs`: the pipes of an auth context, as
fetched by `resolve_token_by_hash` (only rows with `is_active = true`
are ever loaded, so the struct carries no active flag). -/
structure PipeInfo where
  id : Uuid
  name : String
  provider : String
  api_key_encrypted : String
  model_filter : Option String
deriving DecidableEq, Repr

/-- `AuthContext` of `auth/token_resolver.rs`. -/
structure AuthContext where
  user_id : Uuid
  project_id : Uuid
  token_id : Uuid
  user_email : String
  project_name : String
  pipes : List PipeInfo
deriving DecidableEq, Repr

/-- `SelectedPipe` of `auth/pipe_selector.rs`. -/
structure SelectedPipe where
  pipe_id : Uuid
  provider : String
  api_key_decrypted : String
  model : String
deriving DecidableEq, Repr

/-- `PipeSelectionError` of `auth/pipe_selector.rs`. -/
inductive PipeSelectionError where
  | NoPipeFound (provider : String) (model : String)
deriving DecidableEq, Repr

/-- `infer_provider` (pipe_selector.rs lines 14-47). -/
def inferProvider (model : String) : Option String :=
  let m := lowerStr model
  if startsWith "gpt-" m || startsWith "o1" m || startsWith "o3" m
      || startsWith "o4" m || startsWith "chatgpt" m || startsWith "dall-e" m
      || startsWith "text-embedding" m || startsWith "whisper" m
      || startsWith "tts" m then
    some "openai"
  else if startsWith "claude" m then some "anthropic"
  else if startsWith "gemini" m || startsWith "gemma" m then some "google"
  else if startsWith "mistral" m || startsWith "mixtral" m
      || startsWith "ministral" m || startsWith "codestral" m
      || startsWith "pixtral" m then
    some "mistral"
  else if startsWith "llama" m || startsWith "meta-llama" m then some "meta"
  else if startsWith "deepseek" m then some "deepseek"
  else if startsWith "command" m || startsWith "embed-" m
      || startsWith "rerank-" m then
    some "cohere"
  else none

/-- The `(provider, model_id)` derivation of `select_pipe` (lines
62-69).  `model.contains('/')` holds exactly when `split_once` succeeds,
so the two are fused into one match. -/
def deriveProviderModel (model : String) : String × String :=
  match splitOnceChar '/' model with
  | some (a, b) => (lowerStr a, b)
  | none =>
    match inferProvider model with
    | some inferred => (inferred, model)
    | none => (lowerStr model, model)

/-- The model-filter admission test of `select_pipe` (lines 78-86):
comma-split, trim, match against `"*"`, the full model string, or the
model id. -/
def filterAllows (filter : String) (model model_id : String) : Bool :=
  ((splitChar ',' filter).map trimStr).any
    (fun f => f = "*" || f = model || f = model_id)

/-- The pipe scan loop of `select_pipe` (lines 71-97). -/
def findPipe (provider model model_id : String) : List PipeInfo → Option PipeInfo
  | [] => none
  | p :: rest =>
    if lowerStr p.provider = provider then
      match p.model_filter with
      | some f =>
        if filterAllows f model model_id then some p
        else findPipe provider model model_id rest
      | none => some p
    else findPipe provider model model_id rest

/-- `select_pipe` (pipe_selector.rs lines 57-103). -/
def selectPipe (auth_ctx : AuthContext) (model : String) :
    Except PipeSelectionError SelectedPipe :=
  let (provider, model_id) := deriveProviderModel model
  match findPipe provider model model_id auth_ctx.pipes with
  | some p => .ok ⟨p.id, p.provider, p.api_key_encrypted, model⟩
  | none => .error (.NoPipeFound provider model)

/-! ### Claim-side restatements of pipe selection (for the refinement
claim about `select_pipe`) -/

/-- One pipe satisfies the claim's selection predicate: lowercased
provider equals the derived provider, and the model filter is absent or
(comma-split, trimmed) contains `"*"`, the full model string, or the
model id. -/
def pipeMatches (provider model model_id : String) (p : PipeInfo) : Bool :=
  lowerStr p.provider = provider &&
    (match p.model_filter with
     | none => true
     | some f => filterAllows f model model_id)

/-- Modelled from the claim's words, as stated: derive `(provider,
model_id)` by splitting on the first slash and lowercasing the prefix,
else by prefix inference, else by using the model string itself as the
provider; pick the first matching pipe in list order. -/
def specSelectPipe (auth_ctx : AuthContext) (model : String) :
    Except PipeSelectionError SelectedPipe :=
  let (provider, model_id) :=
    match splitOnceChar '/' model with
    | some (a, b) => (lowerStr a, b)
    | none =>
      match inferProvider model with
      | some inferred => (inferred, model)
      | none => (model, model)
  match auth_ctx.pipes.find? (pipeMatches provider model model_id) with
  | some p => .ok ⟨p.id, p.provider, p.api_key_encrypted, model⟩
  | none => .error (.NoPipeFound provider model)

/-- The claim amended at its last derivation case: when neither a slash
nor a known prefix applies, the derived provider is the **lowercased**
model string (as the code computes), not the model string itself. -/
def specSelectPipeLower (auth_ctx : AuthContext) (model : String) :
    Except PipeSelectionError SelectedPipe :=
  let (provider, model_id) :=
    match splitOnceChar '/' model with
    | some (a, b) => (lowerStr a, b)
    | none =>
      match inferProvider model with
      | some inferred => (inferred, model)
      | none => (lowerStr model, model)
  match auth_ctx.pipes.find? (pipeMatches provider model model_id) with
  | some p => .ok ⟨p.id, p.provider, p.api_key_encrypted, model⟩
  | none => .error (.NoPipeFound provider model)

/-! ## Admission — `handlers/auth_check.rs`

The handler is embedded as a pure function of the request together with
an environment that stands for its I/O collaborators: the auth cache
(`resolve`, keyed by the token hash), the database pool (`dbClientOk`,
`getLimits` — the latter already composed with `unwrap_or_default`),
the in-memory counters and today's date.  `hash_token` (SHA-256 hex of
`token_resolver.rs`) is an abstract injective-in-practice function
passed as a parameter; no claim depends on its value. -/

/-- Generic association-list lookup, the model of `HashMap::get`. -/
def lookupA {α : Type} (l : List (String × α)) (k : String) : Option α :=
  match l with
  | [] => none
  | (k', v) :: rest => if k' = k then some v else lookupA rest k

/-- `SpendingLimit` of `db/models.rs` (timestamps omitted: no claim
reads them). -/
structure SpendingLimit where
  id : Uuid
  entity_type : String
  entity_id : Uuid
  period_type : String
  limit_cents : Int
  is_active : Bool
deriving DecidableEq, Repr

/-- `RegisteredKeyInfo` of `registry.rs`. -/
structure RegisteredKeyInfo where
  project_id : Uuid
  provider : String
  upstream_url : String
  display_name : Option String
  is_active : Bool
  egress_ip : String
deriving DecidableEq, Repr

/-- Outcome of `auth_cache.get_or_resolve`: success, `InvalidToken`, or
any other `AuthError` (internal failure). -/
inductive ResolveOutcome where
  | ok (ctx : AuthContext)
  | invalidToken
  | otherErr (msg : String)
deriving DecidableEq, Repr

/-- Response body: plain text or a flat JSON object (all values the
handler emits are strings). -/
inductive RespBody where
  | text (s : String)
  | obj (fields : List (String × String))
deriving DecidableEq, Repr

/-- An HTTP response as the handler builds it. -/
structure HttpResponse where
  status : Nat
  headers : List (String × String)
  body : RespBody
deriving DecidableEq, Repr

/-- The `error` field of a JSON response body, if any. -/
def HttpResponse.errorField (r : HttpResponse) : Option String :=
  match r.body with
  | .text _ => none
  | .obj fields => lookupA fields "error"

/-- A response header by name. -/
def HttpResponse.header (r : HttpResponse) (name : String) : Option String :=
  lookupA r.headers name

/-- `error_response` of auth_check.rs (a JSON body with one `error`
field; `json_response` sets the content-type header). -/
def errorResponse (status : Nat) (message : String) : HttpResponse :=
  ⟨status, [("content-type", "application/json")], .obj [("error", message)]⟩

/-- The parts of a `POST /auth/check` request the handler reads:
the `x-xproxy-mode` header, the `Authorization` header, and the `model`
field the body parse produced (`none` for invalid JSON or a missing
field, exactly as `from_slice(..).ok().and_then(|b| b.model)`). -/
structure AuthRequest where
  mode_header : Option String
  auth_header : Option String
  body_model : Option String
deriving DecidableEq, Repr

/-- The handler's environment of I/O collaborators. -/
structure ManagedAuthEnv where
  resolve : String → ResolveOutcome
  dbClientOk : Bool
  getLimits : String → Uuid → List SpendingLimit
  counters : CountersState
  today : Date

/-- Firewall-mode dispatch test (auth_check.rs lines 32-37). -/
def isFirewallReq (req : AuthRequest) : Bool :=
  (req.mode_header.map (fun v => v == "firewall")).getD false

/-- Bearer-token extraction (lines 46-59): take the `Authorization`
value (empty when absent), strip the `"Bearer "` prefix, trim. -/
def bearerToken (auth_header : Option String) : Option String :=
  match dropBearer "Bearer " (auth_header.getD "") with
  | some rest => some (trimStr rest)
  | none => none

/-- Display of `PipeSelectionError` (the Rust message additionally
quotes the two names; no claim depends on the exact text). -/
def pipeErrMessage : PipeSelectionError → String
  | .NoPipeFound provider model =>
    "no pipe found for provider " ++ provider ++ " model " ++ model

/-- One `for limit in limits` loop of `check_budget` (auth_check.rs
lines 242-250 and 257-270): fail on the first limit whose counter check
rejects, converting cents to micro-cents. -/
def checkLimitList (cs : CountersState) (today : Date) (entity_type : String)
    (entity_id : Uuid) : List SpendingLimit → Except String Unit
  | [] => .ok ()
  | l :: rest =>
    if checkBudget cs entity_type entity_id l.period_type (l.limit_cents * 10000) today then
      checkLimitList cs today entity_type entity_id rest
    else
      .error (entity_type ++ " " ++ l.period_type ++ " limit exceeded for "
        ++ l.period_type ++ " period")

/-- `check_budget` of auth_check.rs (lines 226-273): acquire a DB
client (its failure propagates as an error), then check every active
user limit, then every active project limit. -/
def checkBudgetHandler (env : ManagedAuthEnv) (user_id project_id : Uuid) :
    Except String Unit :=
  if env.dbClientOk then
    match checkLimitList env.counters env.today "user" user_id
        (env.getLimits "user" user_id) with
    | .error e => .error e
    | .ok _ =>
      checkLimitList env.counters env.today "project" project_id
        (env.getLimits "project" project_id)
  else .error "db error"

/-- The managed-proxy arm of `handle_auth_check` (lines 43-156). -/
def handleManagedAuthCheck (hashToken : String → String) (env : ManagedAuthEnv)
    (req : AuthRequest) : HttpResponse :=
  match bearerToken req.auth_header with
  | none => errorResponse 401 "missing bearer token"
  | some token =>
    match env.resolve (hashToken token) with
    | .invalidToken => errorResponse 401 "invalid or expired token"
    | .otherErr e => errorResponse 500 ("auth error: " ++ e)
    | .ok auth_ctx =>
      match req.body_model with
      | none => errorResponse 400 "model field required in request body"
      | some model =>
        match selectPipe auth_ctx model with
        | .error e => errorResponse 403 (pipeErrMessage e)
        | .ok selected_pipe =>
          match checkBudgetHandler env auth_ctx.user_id auth_ctx.project_id with
          | .error msg =>
            ⟨429, [("content-type", "application/json")],
             .obj [("error", "spending_limit_exceeded"), ("message", msg)]⟩
          | .ok _ =>
            ⟨200,
             [("x-xproxy-provider-hint", selected_pipe.provider),
              ("x-xproxy-api-key", selected_pipe.api_key_decrypted),
              ("x-xproxy-model", model),
              ("x-xproxy-user-id", auth_ctx.user_id),
              ("x-xproxy-project-id", auth_ctx.project_id),
              ("x-xproxy-pipe-id", selected_pipe.pipe_id)],
             .text "OK"⟩

/-- `handle_firewall_auth_check` (lines 159-224); `registry` is the
snapshot lookup of `ApiKeyRegistry::lookup`, keyed by hash. -/
def handleFirewallAuthCheck (hashToken : String → String)
    (registry : String → Option RegisteredKeyInfo) (req : AuthRequest) :
    HttpResponse :=
  match bearerToken req.auth_header with
  | none =>
    errorResponse 401 "missing bearer token (API key required for firewall mode)"
  | some api_key =>
    let key_hash := hashToken api_key
    match registry key_hash with
    | none =>
      errorResponse 401
        "API key not registered. Register your API key at the xproxy dashboard."
    | some key_info =>
      let cluster_name :=
        if key_info.egress_ip = "default" then key_info.provider
        else key_info.provider ++ "-" ++ key_info.egress_ip
      ⟨200,
       [("x-xproxy-firewall-mode", "true"),
        ("x-xproxy-upstream-url", key_info.upstream_url),
        ("x-xproxy-project-id", key_info.project_id),
        ("x-xproxy-provider-hint", cluster_name),
        ("x-xproxy-api-key-hash", key_hash)],
       .text "OK"⟩

/-- `handle_auth_check` (lines 24-156): mode dispatch then the matching
arm. -/
def handleAuthCheck (hashToken : String → String) (env : ManagedAuthEnv)
    (registry : String → Option RegisteredKeyInfo) (req : AuthRequest) :
    HttpResponse :=
  if isFirewallReq req then handleFirewallAuthCheck hashToken registry req
  else handleManagedAuthCheck hashToken env req

/-! ## Pricing — `pricing/mod.rs` and `db/queries.rs`

`f64` prices are modelled as rationals; the claims are about which
pricing source wins and the linear cost formula, not float rounding.
The `custom_model_pricing` table is a row list; each SQL `query_opt`
becomes a `find?` over it. -/

/-- `PricingInfo` of pricing/mod.rs (cents per token). -/
structure PricingInfo where
  input_price_per_token : ℚ
  output_price_per_token : ℚ
deriving DecidableEq, Repr

/-- `CustomPricingRow` of db/queries.rs (cents per million tokens);
`project_id = none` is a global row. -/
structure CustomPricingRow where
  id : Uuid
  project_id : Option Uuid
  provider : String
  model : String
  input_price_per_million : ℚ
  output_price_per_million : ℚ
deriving DecidableEq, Repr

/-- The registry's backing `HashMap<(String, String), PricingInfo>`. -/
abbrev PricingTable := List ((String × String) × PricingInfo)

/-- `PricingRegistry::get_pricing` (pricing/mod.rs lines 83-88). -/
def getPricing (prices : PricingTable) (provider model : String) : Option PricingInfo :=
  match prices with
  | [] => none
  | (k, v) :: rest =>
    if k = (provider, model) then some v else getPricing rest provider model

/-- `PricingRegistry::calculate_cost` (lines 91-108): registry pricing
only; a missing entry prices at zero (and logs a warning). -/
def calculateCost (prices : PricingTable) (provider model : String)
    (input_tokens output_tokens : Int) : ℚ :=
  match getPricing prices provider model with
  | some pricing =>
    (input_tokens : ℚ) * pricing.input_price_per_token
      + (output_tokens : ℚ) * pricing.output_price_per_token
  | none => 0

/-- `get_custom_pricing` (db/queries.rs lines 681-732): the
project-scoped row first, then the global (`project_id IS NULL`) row. -/
def getCustomPricing (table : List CustomPricingRow) (project_id : Uuid)
    (provider model : String) : Option CustomPricingRow :=
  match table.find? (fun r =>
      r.project_id == some project_id && r.provider == provider && r.model == model) with
  | some r => some r
  | none =>
    table.find? (fun r =>
      r.project_id == none && r.provider == provider && r.model == model)

/-- `PricingRegistry::calculate_cost_with_custom` (pricing/mod.rs lines
114-139).  `dbOk` is `pool.get_client()` succeeding; when it fails (or
the custom query errors) the code silently falls back to the registry. -/
def calculateCostWithCustom (dbOk : Bool) (table : List CustomPricingRow)
    (prices : PricingTable) (project_id : Uuid) (provider model : String)
    (input_tokens output_tokens : Int) : ℚ :=
  if dbOk then
    match getCustomPricing table project_id provider model with
    | some custom =>
      (input_tokens : ℚ) * (custom.input_price_per_million / 1000000)
        + (output_tokens : ℚ) * (custom.output_price_per_million / 1000000)
    | none => calculateCost prices provider model input_tokens output_tokens
  else calculateCost prices provider model input_tokens output_tokens

/-- Claim-side pricing resolution: the first defined per-token price
pair in the order project-scoped custom row, global custom row,
registry entry (custom per-million prices divided by 1,000,000). -/
def specResolvedPricing (table : List CustomPricingRow) (prices : PricingTable)
    (project_id : Uuid) (provider model : String) : Option (ℚ × ℚ) :=
  match table.find? (fun r =>
      r.project_id == some project_id && r.provider == provider && r.model == model) with
  | some r =>
    some (r.input_price_per_million / 1000000, r.output_price_per_million / 1000000)
  | none =>
    match table.find? (fun r =>
        r.project_id == none && r.provider == provider && r.model == model) with
    | some r =>
      some (r.input_price_per_million / 1000000, r.output_price_per_million / 1000000)
    | none =>
      (getPricing prices provider model).map
        (fun p => (p.input_price_per_token, p.output_price_per_token))

/-! ## Usage flusher — `billing/flusher.rs`

One iteration of the periodic-tick arm of `flush_loop` (lines 65-98),
after the channel has been drained into `pending_events`, as a pure
state transition; `writeOk` stands for `flush_batch`/`flush_counters`
succeeding.  (The size-threshold arm, lines 100-118, performs the
identical snapshot/flush/restore sequence on the same data.) -/

/-- `UsageEvent` of flusher.rs. -/
structure UsageEvent where
  user_id : Option Uuid
  project_id : Uuid
  pipe_id : Option Uuid
  token_id : Option Uuid
  provider : String
  model : String
  input_tokens : Int
  output_tokens : Int
  cost_cents : ℚ
  is_streaming : Bool
  status_code : Option Int
  request_id : Option String
  is_priced : Bool
deriving DecidableEq, Repr

/-- Result of one flush attempt: the surviving pending batch, the
counter map, and what reached the database (`none` when nothing was
written). -/
structure FlushOutcome where
  pending : List UsageEvent
  counters : CountersState
  written : Option (List UsageEvent × List (CounterKey × Int))
deriving DecidableEq, Repr

/-- One tick of `flush_loop` (flusher.rs lines 65-98): drain-complete
pending batch in, snapshot deltas, attempt the write, and on failure
restore the deltas and re-add every event. -/
def flushTick (pending_events : List UsageEvent) (cs : CountersState)
    (writeOk : Bool) : FlushOutcome :=
  let cs' := (snapshotAndReset cs).1
  let deltas := (snapshotAndReset cs).2
  if pending_events.isEmpty then
    if deltas.isEmpty then ⟨[], cs', none⟩
    else if writeOk then ⟨[], cs', some ([], deltas)⟩
    else ⟨[], restoreDeltas cs' deltas, none⟩
  else
    if writeOk then ⟨[], cs', some (pending_events, deltas)⟩
    else ⟨pending_events, restoreDeltas cs' deltas, none⟩

/-! ## Provider registry — `common/llm_providers.rs`

`LlmProvider` keeps the configuration fields `get`/`try_from` read or
copy; the remaining config fields ride along unchanged in the Rust
`clone()` exactly as the fields kept here do. -/

/-- `LlmProvider` of common/configuration.rs (the fields the registry
logic touches). -/
structure LlmProvider where
  name : String
  model : Option String
  access_key : Option String
  endpoint : Option String
  defaultFlag : Option Bool
deriving DecidableEq, Repr

/-- `LlmProviders` of common/llm_providers.rs: both `HashMap`s as
association lists. -/
structure LlmProviders where
  providers : List (String × LlmProvider)
  defaultProvider : Option LlmProvider
  wildcard_providers : List (String × LlmProvider)
deriving DecidableEq, Repr

/-- `HashMap::insert`: replace the existing binding or append. -/
def insertA {α : Type} (l : List (String × α)) (k : String) (v : α) :
    List (String × α) :=
  match l with
  | [] => [(k, v)]
  | (k', v') :: rest =>
    if k' = k then (k, v) :: rest else (k', v') :: insertA rest k v

/-- `LlmProviders::get` (llm_providers.rs lines 24-55). -/
def LlmProviders.get (lp : LlmProviders) (name : String) : Option LlmProvider :=
  match lookupA lp.providers name with
  | some provider => some provider
  | none =>
    match splitOnceChar '/' name with
    | none => none
    | some (pfx, model_name) =>
      let full_model_id := pfx ++ "/" ++ model_name
      match lookupA lp.providers full_model_id with
      | some provider => some provider
      | none =>
        match lookupA lp.providers model_name with
        | some provider => some provider
        | none =>
          match lookupA lp.wildcard_providers pfx with
          | some w => some { w with model := some model_name }
          | none => none

/-- `LlmProvidersNewError` of llm_providers.rs. -/
inductive LlmProvidersNewError where
  | EmptySource
  | MoreThanOneDefault
  | DuplicateName (name : String)
deriving DecidableEq, Repr

/-- `str::ends_with(p)`. -/
def endsWithStr (p s : String) : Bool :=
  p.data.isSuffixOf s.data

/-- `trim_end_matches("/*")` on a reversed character list: drop every
trailing `/*` repetition. -/
def dropStarSlashRev : List Char → List Char
  | '*' :: '/' :: rest => dropStarSlashRev rest
  | l => l

/-- `trim_end_matches('*')` on a reversed character list. -/
def dropStarsRev : List Char → List Char
  | '*' :: rest => dropStarsRev rest
  | l => l

/-- `name.trim_end_matches("/*").trim_end_matches('*')` (llm_providers.rs
line 104). -/
def trimWildcardSuffix (s : String) : String :=
  String.mk ((dropStarsRev (dropStarSlashRev s.data.reverse)).reverse)

/-- The loop body of `LlmProviders::try_from` (lines 82-172) for one
configured provider; `knownModels` stands for
`ProviderId::try_from(..).map(|p| p.models())` (`none` when the prefix
is no known provider id). -/
def processProvider (knownModels : String → Option (List String))
    (acc : LlmProviders) (p : LlmProvider) :
    Except LlmProvidersNewError LlmProviders := do
  let acc ←
    if p.defaultFlag.getD false then
      match acc.defaultProvider with
      | some _ => Except.error .MoreThanOneDefault
      | none => pure { acc with defaultProvider := some p }
    else pure acc
  let name := p.name
  let is_wildcard :=
    match p.model with
    | some m => m == "*" || endsWithStr "/*" m
    | none => false
  if is_wildcard then
    let pfx := trimWildcardSuffix name
    let acc := { acc with wildcard_providers := insertA acc.wildcard_providers pfx p }
    match knownModels pfx with
    | some models =>
      if models.isEmpty then pure acc
      else
        pure (models.foldl
          (fun a model_name =>
            let full_model_id := pfx ++ "/" ++ model_name
            let expanded := { p with model := some model_name, name := full_model_id }
            let a := { a with providers := insertA a.providers full_model_id expanded }
            { a with providers := insertA a.providers model_name expanded })
          acc)
    | none => pure acc
  else
    if (lookupA acc.providers name).isSome then Except.error (.DuplicateName name)
    else
      let acc := { acc with providers := insertA acc.providers name p }
      match p.model with
      | some model =>
        if (lookupA acc.providers model).isSome then Except.error (.DuplicateName name)
        else pure { acc with providers := insertA acc.providers model p }
      | none => pure acc

/-- `LlmProviders::try_from` (llm_providers.rs lines 71-175). -/
def LlmProviders.tryFrom (knownModels : String → Option (List String))
    (cfg : List LlmProvider) : Except LlmProvidersNewError LlmProviders :=
  if cfg.isEmpty then .error .EmptySource
  else cfg.foldlM (processProvider knownModels) ⟨[], none, []⟩

/-! ## Conversational state — `handlers/llm/mod.rs` phase 2

The `crate::state` module itself (storage backends,
`retrieve_and_combine_input`, `extract_input_items`) is not among the
provided sources — only its caller is — so those pieces are modelled
from the specification; `resolve_conversation_state` itself is embedded
from the source. -/

/-- Conversation items are opaque payloads for these claims. -/
abbrev InputItem := String

/-- `InputParam` of the responses API: a bare text or an item list. -/
inductive InputParam where
  | text (s : String)
  | items (l : List InputItem)
deriving DecidableEq, Repr

/-- Modelled from the spec: `StateStorageError`, whose `NotFound`
variant signals an unknown `previous_response_id` (§4.12: absent id →
`StateNotFound`); other storage failures carry a message. -/
inductive StateStorageError where
  | NotFound (id : String)
  | Other (msg : String)
deriving DecidableEq, Repr

/-- Modelled from the spec: `extract_input_items` renders the request's
input as a flat item sequence (a bare text input is one item). -/
def extractInputItems : InputParam → List InputItem
  | .text s => [s]
  | .items l => l

/-- Modelled from the spec: `retrieve_and_combine_input` looks up the
stored turn(s) of `previous_response_id` in the state store and
prepends their items, in order, to the new items (§4.12 step 1); a
missing id is `NotFound`.  `store` is the backend's `get`, with `Other`
for backend failures. -/
def retrieveAndCombineInput
    (store : String → Except StateStorageError (List InputItem))
    (prev_resp_id : String) (new_items : List InputItem) :
    Except StateStorageError (List InputItem) :=
  match store prev_resp_id with
  | .ok stored => .ok (stored ++ new_items)
  | .error e => .error e

/-- `ResponsesAPIRequest`: the two fields phase 2 reads and writes. -/
structure ResponsesReq where
  input : InputParam
  previous_response_id : Option String
deriving DecidableEq, Repr

/-- `ProviderRequestType`: a responses-API request or any other kind. -/
inductive ProviderRequestType where
  | responsesAPIRequest (r : ResponsesReq)
  | otherRequest
deriving DecidableEq, Repr

/-- `ConversationStateContext` of handlers/llm/mod.rs. -/
structure ConversationStateContext where
  should_manage_state : Bool
  original_input_items : List InputItem
deriving DecidableEq, Repr

/-- `resolve_conversation_state` (handlers/llm/mod.rs lines 350-441) as
a pure function.  `hasStateStorage` is `state_storage.is_some()`;
`upstreamSupportsResponsesApi` abbreviates the `get_upstream_path` /
`SupportedUpstreamAPIs::from_endpoint` test of lines 379-392; the
request mutation is returned alongside the context. -/
def resolveConversationState (is_responses_api_client : Bool)
    (client_request : ProviderRequestType) (hasStateStorage : Bool)
    (store : String → Except StateStorageError (List InputItem))
    (upstreamSupportsResponsesApi : Bool) :
    Except HttpResponse (ConversationStateContext × ProviderRequestType) :=
  if !is_responses_api_client then .ok (⟨false, []⟩, client_request)
  else
    match client_request, hasStateStorage with
    | .responsesAPIRequest r, true =>
      let original_input_items := extractInputItems r.input
      if upstreamSupportsResponsesApi then
        .ok (⟨false, original_input_items⟩, client_request)
      else
        match r.previous_response_id with
        | some prev_resp_id =>
          match retrieveAndCombineInput store prev_resp_id original_input_items with
          | .ok combined_input =>
            .ok (⟨true, combined_input⟩,
              .responsesAPIRequest { r with input := .items combined_input })
          | .error (.NotFound _) =>
            .error ⟨409, [],
              .text ("Conversation state not found for previous_response_id: "
                ++ prev_resp_id)⟩
          | .error (.Other _) =>
            .ok (⟨true, extractInputItems r.input⟩, client_request)
        | none => .ok (⟨true, original_input_items⟩, client_request)
    | _, _ => .ok (⟨false, []⟩, client_request)

/-- The caller's early exit (mod.rs lines 126-139): an `Err` response
from phase 2 is returned to the client at once, so the request is
forwarded upstream only in the `Ok` case. -/
inductive PhaseResult where
  | earlyResponse (r : HttpResponse)
  | forward (ctx : ConversationStateContext) (req : ProviderRequestType)
deriving DecidableEq, Repr

/-- The phase-2 step of `handle_llm_request`: resolve, then either bail
out with the ready response or carry on towards the upstream POST. -/
def conversationPhase (is_responses_api_client : Bool)
    (client_request : ProviderRequestType) (hasStateStorage : Bool)
    (store : String → Except StateStorageError (List InputItem))
    (upstreamSupportsResponsesApi : Bool) : PhaseResult :=
  match resolveConversationState is_responses_api_client client_request
      hasStateStorage store upstreamSupportsResponsesApi with
  | .error resp => .earlyResponse resp
  | .ok (ctx, req) => .forward ctx req

/-! ## Operation sequences over the counters (for the budget
monotonicity claim) -/

/-- A counter operation other than `snapshot_and_reset`. -/
inductive CounterOp where
  | record (entity_type : String) (entity_id : Uuid) (period_type : String)
      (micro_cents : Int)
  | restore (deltas : List (CounterKey × Int))
  | hydrateOp (records : List (String × Uuid × String × Date × Int))

/-- Apply one counter operation (all on the same day). -/
def applyOp (today : Date) (s : CountersState) : CounterOp → CountersState
  | .record et id pt mc => recordUsage s et id pt mc today
  | .restore ds => restoreDeltas s ds
  | .hydrateOp rs => hydrate s rs

/-- The operation only adds nonnegative amounts (true of every call
site: costs are nonnegative, restore re-adds snapshot deltas, which are
positive, and hydration loads nonnegative durable spend). -/
def CounterOp.nonneg : CounterOp → Prop
  | .record _ _ _ mc => 0 ≤ mc
  | .restore ds => ∀ kv ∈ ds, 0 ≤ kv.2
  | .hydrateOp rs => ∀ r ∈ rs, 0 ≤ r.2.2.2.2

/-! ### Concrete example data used by counterexamples and witnesses -/

/-- 2026-10-12, the `today` of the concrete examples. -/
def exDay : Date := ⟨2026, 10, 12⟩

/-- A daily user counter key for `exDay`. -/
def exKeyU : CounterKey := ⟨"user", "u1", "daily", exDay⟩

/-- A monthly project counter key for `exDay`'s month. -/
def exKeyP : CounterKey := ⟨"project", "p1", "monthly", ⟨2026, 10, 1⟩⟩

/-- A counter state holding a single negative counter. -/
def exStateNeg : CountersState := [(exKeyU, -1)]

/-- A counter state holding one positive and one zero counter. -/
def exStateMix : CountersState := [(exKeyU, 25), (exKeyP, 0)]

/-- The state reached by recording one million micro-cents of daily
user spend. -/
def exStateAtLimit : CountersState := recordUsage [] "user" "u1" "daily" 1000000 exDay

/-- A concrete usage event for witnesses. -/
def exEvent : UsageEvent :=
  ⟨none, "p1", none, none, "openai", "gpt-4o", 10, 20, 3, false, none, none, true⟩

/-- A pipe whose provider name carries an uppercase letter. -/
def exPipeFoo : PipeInfo := ⟨"pipe9", "foo-pipe", "Foo", "sk-foo", none⟩

/-- An auth context owning only `exPipeFoo`. -/
def exCtxFoo : AuthContext := ⟨"u1", "p1", "t1", "u at example", "proj", [exPipeFoo]⟩

/-- An openai pipe admitting every model. -/
def exPipeOpenai : PipeInfo := ⟨"pipe1", "main", "openai", "sk-test", some "*"⟩

/-- An auth context owning only `exPipeOpenai`. -/
def exCtx : AuthContext := ⟨"u1", "p1", "t1", "u at example", "proj", [exPipeOpenai]⟩

/-- A stand-in hash function for witnesses (the claims never constrain
the hash beyond it being a function of the token). -/
def exHash : String → String := fun s => "H-" ++ s

/-- An environment that resolves the hash of `xproxy-AAAA` to `exCtx`,
has a working DB client and no configured limits. -/
def exEnvOk : ManagedAuthEnv :=
  ⟨fun h => if h = "H-xproxy-AAAA" then .ok exCtx else .invalidToken,
   true, fun _ _ => [], [], exDay⟩

/-- A managed-mode auth-check request bearing that token. -/
def exReqManaged : AuthRequest :=
  ⟨none, some "Bearer xproxy-AAAA", some "openai/gpt-4o"⟩

/-- The same environment as `exEnvOk` except that acquiring a DB client
for the budget check fails. -/
def exEnvDbDown : ManagedAuthEnv :=
  ⟨fun h => if h = "H-xproxy-AAAA" then .ok exCtx else .invalidToken,
   false, fun _ _ => [], [], exDay⟩

/-- A registered firewall API key routed to the default egress. -/
def exKeyInfo : RegisteredKeyInfo :=
  ⟨"p1", "openai", "https://api.openai.com", none, true, "default"⟩

/-- A firewall-mode auth-check request presenting a real upstream key. -/
def exReqFirewall : AuthRequest :=
  ⟨some "firewall", some "Bearer sk-up-real", none⟩

/-- A registry holding exactly the hash of `sk-up-real`. -/
def exRegistry : String → Option RegisteredKeyInfo :=
  fun h => if h = "H-sk-up-real" then some exKeyInfo else none

/-- A configured wildcard provider whose prefix matches no entry of the
embedded provider-to-models dataset. -/
def exWildcardProvider : LlmProvider := ⟨"custom-provider/*", some "*", none, none, none⟩

/-- The registry `try_from` builds out of `exWildcardProvider` alone
when no models are known for the prefix. -/
def exLp : LlmProviders := ⟨[], none, [("custom-provider", exWildcardProvider)]⟩

/-- A responses-API request chaining to the turn `resp_1`. -/
def exRespReq : ResponsesReq := ⟨.items ["hello"], some "resp_1"⟩

/-- A state store that knows no response id at all. -/
def exEmptyStore : String → Except StateStorageError (List InputItem) :=
  fun id => .error (.NotFound id)

end Plano

namespace Plano

/-! # Theorems -/

/-! ## Association-list facts about the counter map -/

theorem lookupKey_addToKey_self (s : CountersState) (k : CounterKey) (v : Int) :
    lookupKey (addToKey s k v) k = some ((lookupKey s k).getD 0 + v) := by
  induction s with
  | nil => simp [addToKey, lookupKey]
  | cons kv rest ih =>
    obtain ⟨k', v'⟩ := kv
    by_cases h : k' = k
    · subst h
      simp [addToKey, lookupKey]
    · simp [addToKey, lookupKey, h, ih]

theorem lookupKey_addToKey_ne (s : CountersState) {k k' : CounterKey} (v : Int)
    (h : k' ≠ k) : lookupKey (addToKey s k' v) k = lookupKey s k := by
  induction s with
  | nil => simp [addToKey, lookupKey, h]
  | cons kv rest ih =>
    obtain ⟨k₀, v₀⟩ := kv
    by_cases h₀ : k₀ = k'
    · subst h₀
      simp [addToKey, lookupKey, h]
    · simp [addToKey, lookupKey, h₀, ih]

theorem lookupKey_addToKey_mono (s : CountersState) (k₀ : CounterKey) (dv : Int)
    (hdv : 0 ≤ dv) {k : CounterKey} {v : Int} (h : lookupKey s k = some v) :
    ∃ w, lookupKey (addToKey s k₀ dv) k = some w ∧ v ≤ w := by
  by_cases hk : k₀ = k
  · subst hk
    refine ⟨(lookupKey s k₀).getD 0 + dv, lookupKey_addToKey_self s k₀ dv, ?_⟩
    rw [h]
    simpa using hdv
  · exact ⟨v, by rw [lookupKey_addToKey_ne s dv hk, h], le_refl v⟩

theorem lookupKey_foldl_addToKey_mono {β : Type} (f : β → CounterKey) (g : β → Int)
    (l : List β) (hl : ∀ b ∈ l, 0 ≤ g b) (s : CountersState) {k : CounterKey}
    {v : Int} (h : lookupKey s k = some v) :
    ∃ w, lookupKey (l.foldl (fun acc b => addToKey acc (f b) (g b)) s) k = some w
      ∧ v ≤ w := by
  induction l generalizing s v with
  | nil => exact ⟨v, h, le_refl v⟩
  | cons b rest ih =>
    obtain ⟨w, hw, hvw⟩ :=
      lookupKey_addToKey_mono s (f b) (g b) (hl b (List.mem_cons_self b rest)) h
    obtain ⟨w', hw', hww'⟩ :=
      ih (fun b' hb' => hl b' (List.mem_cons_of_mem b hb')) _ hw
    exact ⟨w', hw', le_trans hvw hww'⟩

theorem lookupKey_applyOp_mono (today : Date) (s : CountersState) (op : CounterOp)
    (hop : op.nonneg) {k : CounterKey} {v : Int} (h : lookupKey s k = some v) :
    ∃ w, lookupKey (applyOp today s op) k = some w ∧ v ≤ w := by
  cases op with
  | record et id pt mc =>
    exact lookupKey_addToKey_mono s _ mc hop h
  | restore ds =>
    exact lookupKey_foldl_addToKey_mono Prod.fst Prod.snd ds hop s h
  | hydrateOp rs =>
    have hop' : ∀ r ∈ rs, 0 ≤ r.2.2.2.2 := hop
    exact lookupKey_foldl_addToKey_mono
      (fun r => ⟨r.1, r.2.1, r.2.2.1, r.2.2.2.1⟩) (fun r => r.2.2.2.2) rs hop' s h

/-- `check_budget` rejects exactly when the period is recognized and
the counter for its key has reached the limit. -/
theorem checkBudget_eq_false_iff (s : CountersState) (et : String) (id : Uuid)
    (pt : String) (limit : Int) (today : Date) :
    checkBudget s et id pt limit today = false ↔
      ∃ ps, checkPeriodStart pt today = some ps ∧
        ∃ v, lookupKey s ⟨et, id, pt, ps⟩ = some v ∧ limit ≤ v := by
  unfold checkBudget
  cases hps : checkPeriodStart pt today with
  | none => simp
  | some ps =>
    cases hv : lookupKey s ⟨et, id, pt, ps⟩ with
    | none => simp [hv]
    | some v => simp [hv, not_lt]

/-! ## Snapshot/restore facts -/

theorem lookupKey_map_zero (s : CountersState) (k : CounterKey) :
    lookupKey (s.map (fun kv => (kv.1, (0 : Int)))) k
      = (lookupKey s k).map (fun _ => (0 : Int)) := by
  induction s with
  | nil => simp [lookupKey]
  | cons kv rest ih =>
    obtain ⟨k₀, v₀⟩ := kv
    by_cases h : k₀ = k
    · subst h; simp [lookupKey]
    · simp [lookupKey, h, ih]

theorem restoreDeltas_cons_ne (ds : List (CounterKey × Int)) (k₀ : CounterKey)
    (x : Int) (t : CountersState) (h : ∀ kv ∈ ds, kv.1 ≠ k₀) :
    restoreDeltas ((k₀, x) :: t) ds = (k₀, x) :: restoreDeltas t ds := by
  induction ds generalizing t with
  | nil => rfl
  | cons d rest ih =>
    have hd : d.1 ≠ k₀ := h d (List.mem_cons_self d rest)
    have hne : ¬(k₀ = d.1) := fun hc => hd hc.symm
    have step : addToKey ((k₀, x) :: t) d.1 d.2 = (k₀, x) :: addToKey t d.1 d.2 := by
      simp [addToKey, hne]
    show restoreDeltas (addToKey ((k₀, x) :: t) d.1 d.2) rest
      = (k₀, x) :: restoreDeltas (addToKey t d.1 d.2) rest
    rw [step]
    exact ih _ (fun kv hkv => h kv (List.mem_cons_of_mem d hkv))

/-- For a well-formed, nonnegative counter map, restoring the snapshot's
deltas into the zeroed map reproduces the map exactly. -/
theorem restore_snapshot_eq (s : CountersState)
    (hnodup : (s.map Prod.fst).Nodup) (hpos : ∀ kv ∈ s, 0 ≤ kv.2) :
    restoreDeltas (snapshotAndReset s).1 (snapshotAndReset s).2 = s := by
  unfold snapshotAndReset
  induction s with
  | nil => rfl
  | cons kv rest ih =>
    obtain ⟨k₀, v₀⟩ := kv
    simp only [List.map_cons, List.nodup_cons] at hnodup
    have hk₀ : k₀ ∉ rest.map Prod.fst := hnodup.1
    have hv₀ : 0 ≤ v₀ := hpos (k₀, v₀) (List.mem_cons_self _ _)
    have hrest : ∀ kv ∈ rest, 0 ≤ kv.2 :=
      fun kv hkv => hpos kv (List.mem_cons_of_mem _ hkv)
    have hfilterne : ∀ kv ∈ rest.filter (fun kv => 0 < kv.2), kv.1 ≠ k₀ := by
      intro kv hkv hc
      exact hk₀ (hc ▸ List.mem_map_of_mem Prod.fst (List.mem_of_mem_filter hkv))
    by_cases hp : 0 < v₀
    · have hfilter : ((k₀, v₀) :: rest).filter (fun kv => 0 < kv.2)
          = (k₀, v₀) :: rest.filter (fun kv => 0 < kv.2) := by
        simp [List.filter_cons, hp]
      rw [List.map_cons, hfilter]
      show restoreDeltas
          (addToKey ((k₀, 0) :: rest.map (fun kv => (kv.1, (0 : Int)))) k₀ v₀)
          (rest.filter (fun kv => 0 < kv.2)) = (k₀, v₀) :: rest
      have hadd : addToKey ((k₀, 0) :: rest.map (fun kv => (kv.1, (0 : Int)))) k₀ v₀
          = (k₀, 0 + v₀) :: rest.map (fun kv => (kv.1, (0 : Int))) := by
        simp [addToKey]
      rw [hadd, restoreDeltas_cons_ne _ _ _ _ hfilterne, zero_add,
        ih hnodup.2 hrest]
    · have hz : v₀ = 0 := le_antisymm (not_lt.mp hp) hv₀
      have hfilter : ((k₀, v₀) :: rest).filter (fun kv => 0 < kv.2)
          = rest.filter (fun kv => 0 < kv.2) := by
        simp [List.filter_cons, hp]
      rw [List.map_cons, hfilter, restoreDeltas_cons_ne _ _ _ _ hfilterne,
        ih hnodup.2 hrest, hz]

/-! ## Claim C10 — unrecognized period types always admit -/

/-- C10: a `check_budget` call whose `period_type` is neither `"daily"`
nor `"monthly"` returns `true` (admit) in every counter state, even
directly after usage was recorded under the same period-type string,
which `record_usage` files under today's date as `period_start`. -/
theorem c10_unrecognized_period_always_admits (s : CountersState) (et : String)
    (id : Uuid) (pt : String) (limit mc : Int) (today : Date)
    (h1 : pt ≠ "daily") (h2 : pt ≠ "monthly") :
    checkBudget s et id pt limit today = true
    ∧ checkBudget (recordUsage s et id pt mc today) et id pt limit today = true
    ∧ recordPeriodStart pt today = today := by
  unfold checkBudget checkPeriodStart recordPeriodStart
  simp [h1, h2]

/-- Witness for C10 at period type `"weekly"`, after recording 5,000,000
micro-cents against a 10,000 micro-cent limit. -/
theorem c10_unrecognized_period_witness :
    checkBudget [] "project" "p1" "weekly" 10000 ⟨2026, 10, 12⟩ = true
    ∧ checkBudget (recordUsage [] "project" "p1" "weekly" 5000000 ⟨2026, 10, 12⟩)
        "project" "p1" "weekly" 10000 ⟨2026, 10, 12⟩ = true
    ∧ recordPeriodStart "weekly" ⟨2026, 10, 12⟩ = ⟨2026, 10, 12⟩ :=
  c10_unrecognized_period_always_admits [] "project" "p1" "weekly" 10000 5000000
    ⟨2026, 10, 12⟩ (by decide) (by decide)

theorem lookupKey_foldl_ops_mono (today : Date) (ops : List CounterOp)
    (hops : ∀ op ∈ ops, op.nonneg) :
    ∀ (s : CountersState) {k : CounterKey} {v : Int}, lookupKey s k = some v →
      ∃ w, lookupKey (ops.foldl (applyOp today) s) k = some w ∧ v ≤ w := by
  induction ops with
  | nil => exact fun s k v h => ⟨v, h, le_refl v⟩
  | cons op rest ih =>
    intro s k v h
    obtain ⟨w, hw, hvw⟩ :=
      lookupKey_applyOp_mono today s op (hops op (List.mem_cons_self op rest)) h
    obtain ⟨w', hw', hww'⟩ :=
      ih (fun o ho => hops o (List.mem_cons_of_mem op ho)) _ hw
    exact ⟨w', hw', le_trans hvw hww'⟩

/-! ## Claim C3 — budget monotonicity -/

/-- C3 counterexample: after recording spending up to the limit (check
rejects), a single intervening `snapshot_and_reset` makes the very next
`check_budget` for the same entity, period and limit admit again — the
claim's "regardless of any intervening snapshot_and_reset" is false. -/
theorem c3_counterexample :
    checkBudget exStateAtLimit "user" "u1" "daily" 1000000 exDay = false
    ∧ checkBudget (snapshotAndReset exStateAtLimit).1
        "user" "u1" "daily" 1000000 exDay = true := by
  constructor <;> rfl

/-- C3 (amended): once the recorded spending for an entity and period
has reached the limit, every further `check_budget` for the same
entity, period and limit rejects under any sequence of intervening
`record_usage`, `restore_deltas` and `hydrate` operations with
nonnegative amounts (the operations the source performs besides
`snapshot_and_reset`); a bare `snapshot_and_reset` zeroes the in-memory
view and must be exempted, as the counterexample shows. -/
theorem c3_budget_monotonic_amended (today : Date) (s : CountersState)
    (et : String) (id : Uuid) (pt : String) (limit : Int) (ops : List CounterOp)
    (hops : ∀ op ∈ ops, op.nonneg)
    (hover : checkBudget s et id pt limit today = false) :
    checkBudget (ops.foldl (applyOp today) s) et id pt limit today = false := by
  rw [checkBudget_eq_false_iff] at hover ⊢
  obtain ⟨ps, hps, v, hv, hlim⟩ := hover
  obtain ⟨w, hw, hvw⟩ := lookupKey_foldl_ops_mono today ops hops s hv
  exact ⟨ps, hps, w, hw, le_trans hlim hvw⟩

/-- Witness for C3: a counter at its daily limit keeps rejecting across
an intervening `record_usage` and a `restore_deltas`. -/
theorem c3_budget_monotonic_witness :
    checkBudget
      ([CounterOp.record "user" "u1" "daily" 5,
        CounterOp.restore [(exKeyU, 7)]].foldl (applyOp exDay) exStateAtLimit)
      "user" "u1" "daily" 1000000 exDay = false :=
  c3_budget_monotonic_amended exDay exStateAtLimit "user" "u1" "daily" 1000000
    [CounterOp.record "user" "u1" "daily" 5, CounterOp.restore [(exKeyU, 7)]]
    (by
      intro op hop
      simp only [List.mem_cons, List.not_mem_nil, or_false] at hop
      rcases hop with rfl | rfl
      · exact (by decide : (0 : Int) ≤ 5)
      · intro kv hkv
        simp only [List.mem_singleton] at hkv
        subst hkv
        exact (by decide : (0 : Int) ≤ 7))
    (by rfl)

/-! ## Claim C4 — snapshot/restore as inverses -/

/-- C4 counterexample: on the state holding a single counter of value
−1 (a non-zero value), `snapshot_and_reset` emits no delta at all —
though the claim demands exactly the non-zero pairs — and restoring the
emitted deltas leaves the counter at 0, not its prior value −1. -/
theorem c4_counterexample :
    (snapshotAndReset exStateNeg).2 = []
    ∧ lookupKey
        (restoreDeltas (snapshotAndReset exStateNeg).1 (snapshotAndReset exStateNeg).2)
        exKeyU = some 0
    ∧ lookupKey exStateNeg exKeyU = some (-1) := by
  refine ⟨rfl, rfl, rfl⟩

/-- C4 (amended): `snapshot_and_reset` zeroes every counter and emits
exactly the strictly **positive** (key, delta) pairs (the source's
`val > 0` filter, not "non-zero"); when every counter is nonnegative —
as in every state the gateway itself produces — immediately restoring
the emitted deltas reproduces the map exactly, so `get_current`
afterwards returns the same value for every key as before. -/
theorem c4_snapshot_restore_amended (s : CountersState)
    (hnodup : (s.map Prod.fst).Nodup) (hpos : ∀ kv ∈ s, 0 ≤ kv.2) :
    (∀ kv, kv ∈ (snapshotAndReset s).2 ↔ kv ∈ s ∧ 0 < kv.2)
    ∧ (∀ k, lookupKey (snapshotAndReset s).1 k
        = (lookupKey s k).map (fun _ => (0 : Int)))
    ∧ restoreDeltas (snapshotAndReset s).1 (snapshotAndReset s).2 = s
    ∧ ∀ et id pt today,
        getCurrent (restoreDeltas (snapshotAndReset s).1 (snapshotAndReset s).2)
          et id pt today = getCurrent s et id pt today := by
  have hinv := restore_snapshot_eq s hnodup hpos
  refine ⟨?_, ?_, hinv, ?_⟩
  · intro kv
    simp [snapshotAndReset, List.mem_filter]
  · intro k
    exact lookupKey_map_zero s k
  · intro et id pt today
    rw [hinv]

/-- Witness for C4 on a two-counter state (one positive, one zero). -/
theorem c4_snapshot_restore_witness :
    (((exKeyU, (25 : Int)) ∈ (snapshotAndReset exStateMix).2)
      ↔ ((exKeyU, (25 : Int)) ∈ exStateMix ∧ (0 : Int) < 25))
    ∧ restoreDeltas (snapshotAndReset exStateMix).1 (snapshotAndReset exStateMix).2
        = exStateMix := by
  have h := c4_snapshot_restore_amended exStateMix
    (by decide)
    (by
      intro kv hkv
      simp only [exStateMix, List.mem_cons, List.not_mem_nil, or_false] at hkv
      rcases hkv with rfl | rfl <;> decide)
  exact ⟨h.1 _, h.2.2.1⟩

/-! ## Claim C6 — failed flushes lose nothing -/

/-- C6: when the store write of a flush attempt fails, every usage
event of the drained batch is back in the pending batch, nothing
reached the database, and the counter map is exactly the snapshot-reset
map with the emitted deltas re-added via `restore_deltas`; for a
well-formed nonnegative counter map this equals the pre-flush map, so
no usage event or counter delta is lost. -/
theorem c6_flush_failure_preserves (pending : List UsageEvent) (cs : CountersState) :
    (flushTick pending cs false).pending = pending
    ∧ (flushTick pending cs false).written = none
    ∧ (flushTick pending cs false).counters
        = restoreDeltas (snapshotAndReset cs).1 (snapshotAndReset cs).2
    ∧ ((cs.map Prod.fst).Nodup → (∀ kv ∈ cs, 0 ≤ kv.2) →
        (flushTick pending cs false).counters = cs) := by
  have h3 : (flushTick pending cs false).counters
      = restoreDeltas (snapshotAndReset cs).1 (snapshotAndReset cs).2 := by
    by_cases hp : pending.isEmpty
    · by_cases hd : (snapshotAndReset cs).2.isEmpty
      · have hde : (snapshotAndReset cs).2 = [] := List.isEmpty_iff.mp hd
        simp [flushTick, hp, hd, hde, restoreDeltas]
      · simp [flushTick, hp, hd]
    · simp [flushTick, hp]
  have h1 : (flushTick pending cs false).pending = pending := by
    by_cases hp : pending.isEmpty
    · have hpe : pending = [] := List.isEmpty_iff.mp hp
      subst hpe
      by_cases hd : (snapshotAndReset cs).2.isEmpty <;> simp [flushTick, hd]
    · simp [flushTick, hp]
  have h2 : (flushTick pending cs false).written = none := by
    by_cases hp : pending.isEmpty
    · by_cases hd : (snapshotAndReset cs).2.isEmpty <;> simp [flushTick, hp, hd]
    · simp [flushTick, hp]
  exact ⟨h1, h2, h3,
    fun hnodup hpos => by rw [h3, restore_snapshot_eq cs hnodup hpos]⟩

/-- Witness for C6: a one-event batch over the mixed example state
fails to write; the event and both counters survive untouched. -/
theorem c6_flush_failure_witness :
    (flushTick [exEvent] exStateMix false).pending = [exEvent]
    ∧ (flushTick [exEvent] exStateMix false).written = none
    ∧ (flushTick [exEvent] exStateMix false).counters = exStateMix := by
  have h := c6_flush_failure_preserves [exEvent] exStateMix
  refine ⟨h.1, h.2.1, h.2.2.2 (by decide) ?_⟩
  intro kv hkv
  simp only [exStateMix, List.mem_cons, List.not_mem_nil, or_false] at hkv
  rcases hkv with rfl | rfl <;> decide

/-! ## Claim C2 — pipe selection -/

theorem findPipe_eq_find? (provider model model_id : String)
    (pipes : List PipeInfo) :
    findPipe provider model model_id pipes
      = pipes.find? (pipeMatches provider model model_id) := by
  induction pipes with
  | nil => rfl
  | cons p rest ih =>
    by_cases hp : lowerStr p.provider = provider
    · cases hf : p.model_filter with
      | none => simp [findPipe, pipeMatches, hp, hf]
      | some f =>
        by_cases hm : filterAllows f model model_id
        · simp [findPipe, pipeMatches, hp, hf, hm]
        · simp [findPipe, pipeMatches, hp, hf, hm, ih]
    · simp [findPipe, pipeMatches, hp, ih]

/-- C2 counterexample: for model `"Foo"` (no slash, no well-known
prefix) against a pipe whose provider is `"Foo"`, the code lowercases
the derived provider and selects the pipe, while the claim's derivation
("the model string itself as the provider") makes the lowercased pipe
provider `"foo"` mismatch `"Foo"` and predicts `NoPipeFound` — the two
disagree at this input. -/
theorem c2_counterexample :
    selectPipe exCtxFoo "Foo" = .ok ⟨"pipe9", "Foo", "sk-foo", "Foo"⟩
    ∧ specSelectPipe exCtxFoo "Foo" = .error (.NoPipeFound "Foo" "Foo") := by
  constructor <;> rfl

/-- C2 (amended): `select_pipe` coincides everywhere with the claim's
selection procedure once its final derivation case reads "the
**lowercased** model string as the provider": split on the first slash
lowercasing the prefix, else infer from well-known prefixes, else
lowercase the model string; then return the first pipe in the auth
context's list order whose lowercased provider equals the derived
provider and whose model filter is absent or (comma-split, trimmed)
contains `"*"`, the full model string, or the post-slash model id; if
none matches, fail with `NoPipeFound` carrying that provider and
model. -/
theorem c2_select_pipe_amended (auth_ctx : AuthContext) (model : String) :
    selectPipe auth_ctx model = specSelectPipeLower auth_ctx model := by
  unfold selectPipe specSelectPipeLower deriveProviderModel
  cases h : splitOnceChar '/' model with
  | some ab =>
    obtain ⟨a, b⟩ := ab
    simp [findPipe_eq_find?]
  | none =>
    cases hi : inferProvider model <;> simp [findPipe_eq_find?]

/-! ## Claim C5 — pricing chain -/

/-- C5: with the custom-pricing lookup reachable (`dbOk = true`, the
only mode the claim speaks about), the computed cost equals
`input_tokens × input_price + output_tokens × output_price` under the
first defined pricing in the order project-scoped custom row, global
(`project = null`) custom row, registry entry — custom per-million
prices divided by 1,000,000 — and is zero (not a failure: the function
is total) when none of the three defines a price. -/
theorem c5_pricing_chain (table : List CustomPricingRow) (prices : PricingTable)
    (project_id : Uuid) (provider model : String)
    (input_tokens output_tokens : Int) :
    calculateCostWithCustom true table prices project_id provider model
        input_tokens output_tokens
      = match specResolvedPricing table prices project_id provider model with
        | some p => (input_tokens : ℚ) * p.1 + (output_tokens : ℚ) * p.2
        | none => 0 := by
  unfold calculateCostWithCustom getCustomPricing specResolvedPricing calculateCost
  cases h1 : table.find? (fun r =>
      r.project_id == some project_id && r.provider == provider && r.model == model) with
  | some r => simp [h1]
  | none =>
    cases h2 : table.find? (fun r =>
        r.project_id == none && r.provider == provider && r.model == model) with
    | some r => simp [h1, h2]
    | none =>
      cases h3 : getPricing prices provider model with
      | some p => simp [h1, h2, h3]
      | none => simp [h1, h2, h3]

/-! ## Claim C7 — firewall-mode admission -/

/-- C7: for every firewall-mode `/auth/check` request presenting a
bearer key, an unregistered key hash yields 401, and a registered one
yields 200 whose `x-xproxy-provider-hint` is the cluster name — the
provider itself when `egress_ip = "default"`, else
`provider ++ "-" ++ egress_ip` — alongside
`x-xproxy-firewall-mode: true`, `x-xproxy-upstream-url`,
`x-xproxy-project-id` and `x-xproxy-api-key-hash`. -/
theorem c7_firewall_admission (hashToken : String → String)
    (env : ManagedAuthEnv) (registry : String → Option RegisteredKeyInfo)
    (req : AuthRequest) (key : String)
    (hmode : isFirewallReq req = true)
    (hbearer : bearerToken req.auth_header = some key) :
    (registry (hashToken key) = none →
      (handleAuthCheck hashToken env registry req).status = 401)
    ∧ ∀ key_info, registry (hashToken key) = some key_info →
        handleAuthCheck hashToken env registry req =
          ⟨200,
           [("x-xproxy-firewall-mode", "true"),
            ("x-xproxy-upstream-url", key_info.upstream_url),
            ("x-xproxy-project-id", key_info.project_id),
            ("x-xproxy-provider-hint",
              if key_info.egress_ip = "default" then key_info.provider
              else key_info.provider ++ "-" ++ key_info.egress_ip),
            ("x-xproxy-api-key-hash", hashToken key)],
           .text "OK"⟩ := by
  constructor
  · intro habsent
    simp [handleAuthCheck, hmode, handleFirewallAuthCheck, hbearer, habsent,
      errorResponse]
  · intro key_info hfound
    simp [handleAuthCheck, hmode, handleFirewallAuthCheck, hbearer, hfound]

/-- Witness for C7: the registered key `sk-up-real` with default egress
is admitted with provider hint `openai`; an unknown key is refused with
401. -/
theorem c7_firewall_admission_witness :
    handleAuthCheck exHash exEnvOk exRegistry exReqFirewall =
      ⟨200,
       [("x-xproxy-firewall-mode", "true"),
        ("x-xproxy-upstream-url", "https://api.openai.com"),
        ("x-xproxy-project-id", "p1"),
        ("x-xproxy-provider-hint", "openai"),
        ("x-xproxy-api-key-hash", "H-sk-up-real")],
       .text "OK"⟩
    ∧ (handleAuthCheck exHash exEnvOk (fun _ => none) exReqFirewall).status = 401 := by
  constructor
  · have h := (c7_firewall_admission exHash exEnvOk exRegistry exReqFirewall
      "sk-up-real" (by decide) (by decide)).2 exKeyInfo (by decide)
    rw [h]
    rfl
  · exact (c7_firewall_admission exHash exEnvOk (fun _ => none) exReqFirewall
      "sk-up-real" (by decide) (by decide)).1 rfl

/-! ## Claim C1 — managed-mode admission -/

theorem checkLimitList_ok_iff (cs : CountersState) (today : Date) (et : String)
    (id : Uuid) (limits : List SpendingLimit) :
    checkLimitList cs today et id limits = .ok () ↔
      ∀ l ∈ limits,
        checkBudget cs et id l.period_type (l.limit_cents * 10000) today = true := by
  induction limits with
  | nil => simp [checkLimitList]
  | cons l rest ih =>
    by_cases h : checkBudget cs et id l.period_type (l.limit_cents * 10000) today = true
    · simp [checkLimitList, h, ih]
    · constructor
      · intro hok
        simp [checkLimitList, h] at hok
      · intro hall
        exact absurd (hall l (List.mem_cons_self l rest)) h

theorem checkBudgetHandler_ok_iff (env : ManagedAuthEnv) (uid pid : Uuid) :
    checkBudgetHandler env uid pid = .ok () ↔
      (env.dbClientOk = true
       ∧ (∀ l ∈ env.getLimits "user" uid,
           checkBudget env.counters "user" uid l.period_type
             (l.limit_cents * 10000) env.today = true)
       ∧ (∀ l ∈ env.getLimits "project" pid,
           checkBudget env.counters "project" pid l.period_type
             (l.limit_cents * 10000) env.today = true)) := by
  unfold checkBudgetHandler
  by_cases hdb : env.dbClientOk
  · cases hu : checkLimitList env.counters env.today "user" uid
        (env.getLimits "user" uid) with
    | error e =>
      simp only [hdb, if_true, hu, true_and]
      constructor
      · intro hok; cases hok
      · intro hall
        have := (checkLimitList_ok_iff env.counters env.today "user" uid
          (env.getLimits "user" uid)).mpr hall.1
        rw [hu] at this
        cases this
    | ok u =>
      cases u
      have huser := (checkLimitList_ok_iff env.counters env.today "user" uid
        (env.getLimits "user" uid)).mp hu
      simp only [hdb, if_true, hu, true_and]
      rw [checkLimitList_ok_iff]
      constructor
      · intro h; exact ⟨huser, h⟩
      · intro h; exact h.2
  · simp only [Bool.not_eq_true] at hdb
    simp [hdb]

/-- C1 counterexample: a managed-mode request whose token resolves,
whose body names a model, whose pipe selection succeeds and for which
**no** spending limit exists at all — so the claim, as stated, demands
200 — is answered 429 with `error = "spending_limit_exceeded"` when
acquiring a DB client for the budget check fails. -/
theorem c1_counterexample :
    bearerToken exReqManaged.auth_header = some "xproxy-AAAA"
    ∧ exEnvDbDown.resolve (exHash "xproxy-AAAA") = .ok exCtx
    ∧ exReqManaged.body_model = some "openai/gpt-4o"
    ∧ selectPipe exCtx "openai/gpt-4o"
        = .ok ⟨"pipe1", "openai", "sk-test", "openai/gpt-4o"⟩
    ∧ exEnvDbDown.getLimits "user" "u1" = []
    ∧ exEnvDbDown.getLimits "project" "p1" = []
    ∧ (handleAuthCheck exHash exEnvDbDown (fun _ => none) exReqManaged).status = 429
    ∧ (handleAuthCheck exHash exEnvDbDown (fun _ => none) exReqManaged).errorField
        = some "spending_limit_exceeded" := by
  refine ⟨rfl, rfl, rfl, rfl, rfl, rfl, rfl, rfl⟩

/-- C1 (amended): for every managed-mode `/auth/check` request the
handler returns 401 when no bearer token is presented or the token
resolves to `InvalidToken`; 500 when resolution fails internally; 400
when the parsed body has no `model`; 403 when pipe selection fails;
429 with a JSON `error` field of `"spending_limit_exceeded"` when the
budget check errs — which happens exactly when the DB client cannot be
acquired or some fetched active user or project limit check rejects —
and otherwise 200 with the six `x-xproxy-*` headers set from the
selected pipe and auth context. -/
theorem c1_managed_admission_amended (hashToken : String → String)
    (env : ManagedAuthEnv) (registry : String → Option RegisteredKeyInfo)
    (req : AuthRequest) (hmode : isFirewallReq req = false) :
    (bearerToken req.auth_header = none →
      (handleAuthCheck hashToken env registry req).status = 401)
    ∧ (∀ tok, bearerToken req.auth_header = some tok →
        env.resolve (hashToken tok) = .invalidToken →
        (handleAuthCheck hashToken env registry req).status = 401)
    ∧ (∀ tok e, bearerToken req.auth_header = some tok →
        env.resolve (hashToken tok) = .otherErr e →
        (handleAuthCheck hashToken env registry req).status = 500)
    ∧ (∀ tok ctx, bearerToken req.auth_header = some tok →
        env.resolve (hashToken tok) = .ok ctx →
        req.body_model = none →
        (handleAuthCheck hashToken env registry req).status = 400)
    ∧ (∀ tok ctx model e, bearerToken req.auth_header = some tok →
        env.resolve (hashToken tok) = .ok ctx →
        req.body_model = some model →
        selectPipe ctx model = .error e →
        (handleAuthCheck hashToken env registry req).status = 403)
    ∧ (∀ tok ctx model sel msg, bearerToken req.auth_header = some tok →
        env.resolve (hashToken tok) = .ok ctx →
        req.body_model = some model →
        selectPipe ctx model = .ok sel →
        checkBudgetHandler env ctx.user_id ctx.project_id = .error msg →
        (handleAuthCheck hashToken env registry req).status = 429
        ∧ (handleAuthCheck hashToken env registry req).errorField
            = some "spending_limit_exceeded")
    ∧ (∀ tok ctx model sel, bearerToken req.auth_header = some tok →
        env.resolve (hashToken tok) = .ok ctx →
        req.body_model = some model →
        selectPipe ctx model = .ok sel →
        checkBudgetHandler env ctx.user_id ctx.project_id = .ok () →
        handleAuthCheck hashToken env registry req =
          ⟨200,
           [("x-xproxy-provider-hint", sel.provider),
            ("x-xproxy-api-key", sel.api_key_decrypted),
            ("x-xproxy-model", model),
            ("x-xproxy-user-id", ctx.user_id),
            ("x-xproxy-project-id", ctx.project_id),
            ("x-xproxy-pipe-id", sel.pipe_id)],
           .text "OK"⟩)
    ∧ (∀ uid pid, checkBudgetHandler env uid pid = .ok () ↔
        (env.dbClientOk = true
         ∧ (∀ l ∈ env.getLimits "user" uid,
             checkBudget env.counters "user" uid l.period_type
               (l.limit_cents * 10000) env.today = true)
         ∧ (∀ l ∈ env.getLimits "project" pid,
             checkBudget env.counters "project" pid l.period_type
               (l.limit_cents * 10000) env.today = true))) := by
  have hr : handleAuthCheck hashToken env registry req
      = handleManagedAuthCheck hashToken env req := by
    simp [handleAuthCheck, hmode]
  refine ⟨?_, ?_, ?_, ?_, ?_, ?_, ?_, ?_⟩
  · intro hnone
    simp [hr, handleManagedAuthCheck, hnone, errorResponse]
  · intro tok htok hres
    simp [hr, handleManagedAuthCheck, htok, hres, errorResponse]
  · intro tok e htok hres
    simp [hr, handleManagedAuthCheck, htok, hres, errorResponse]
  · intro tok ctx htok hres hbody
    simp [hr, handleManagedAuthCheck, htok, hres, hbody, errorResponse]
  · intro tok ctx model e htok hres hbody hsel
    simp [hr, handleManagedAuthCheck, htok, hres, hbody, hsel, errorResponse]
  · intro tok ctx model sel msg htok hres hbody hsel hbud
    constructor <;>
      simp [hr, handleManagedAuthCheck, htok, hres, hbody, hsel, hbud,
        HttpResponse.errorField, lookupA]
  · intro tok ctx model sel htok hres hbody hsel hbud
    simp [hr, handleManagedAuthCheck, htok, hres, hbody, hsel, hbud]
  · intro uid pid
    exact checkBudgetHandler_ok_iff env uid pid

/-- Witness for C1: the fully passing request of the managed scenario
is answered 200 with all six headers populated from the selected pipe
and the auth context. -/
theorem c1_managed_admission_witness :
    handleAuthCheck exHash exEnvOk (fun _ => none) exReqManaged =
      ⟨200,
       [("x-xproxy-provider-hint", "openai"),
        ("x-xproxy-api-key", "sk-test"),
        ("x-xproxy-model", "openai/gpt-4o"),
        ("x-xproxy-user-id", "u1"),
        ("x-xproxy-project-id", "p1"),
        ("x-xproxy-pipe-id", "pipe1")],
       .text "OK"⟩ :=
  (c1_managed_admission_amended exHash exEnvOk (fun _ => none) exReqManaged
      rfl).2.2.2.2.2.2.1
    "xproxy-AAAA" exCtx "openai/gpt-4o" ⟨"pipe1", "openai", "sk-test", "openai/gpt-4o"⟩
    rfl rfl rfl rfl rfl

/-! ## Claim C8 — runtime wildcard provider matching -/

theorem splitFirstL_append (c : Char) (a b : List Char) (ha : c ∉ a) :
    splitFirstL c (a ++ c :: b) = some (a, b) := by
  induction a with
  | nil => simp [splitFirstL]
  | cons x xs ih =>
    have hx : ¬(x = c) := fun h => ha (h ▸ List.mem_cons_self x xs)
    have hxs : c ∉ xs := fun h => ha (List.mem_cons_of_mem x h)
    simp [splitFirstL, hx, ih hxs]

theorem splitOnceChar_slash_append (pfx rest : String)
    (h : ('/' : Char) ∉ pfx.data) :
    splitOnceChar '/' (pfx ++ "/" ++ rest) = some (pfx, rest) := by
  unfold splitOnceChar
  have hsl : ("/" : String).data = ['/'] := rfl
  have hdata : (pfx ++ "/" ++ rest).data = pfx.data ++ '/' :: rest.data := by
    simp [String.data_append, hsl]
  rw [hdata, splitFirstL_append '/' pfx.data rest.data h]

/-- C8: for a provider registry built by `try_from`, a lookup of
`<prefix>/<anything>` that hits no exact entry (which subsumes the
identical full-slug lookup) and no bare-model entry, while the prefix
is registered as a wildcard provider — the situation of a configured
wildcard whose models were not expanded at load time — returns a copy
of the wildcard provider's configuration with its `model` field set to
`<anything>`. -/
theorem c8_wildcard_lookup (knownModels : String → Option (List String))
    (cfg : List LlmProvider) (lp : LlmProviders)
    (_hbuild : LlmProviders.tryFrom knownModels cfg = .ok lp)
    (pfx rest : String) (hslash : ('/' : Char) ∉ pfx.data) (w : LlmProvider)
    (hwild : lookupA lp.wildcard_providers pfx = some w)
    (hexact : lookupA lp.providers (pfx ++ "/" ++ rest) = none)
    (hbare : lookupA lp.providers rest = none) :
    lp.get (pfx ++ "/" ++ rest) = some { w with model := some rest } := by
  unfold LlmProviders.get
  rw [hexact, splitOnceChar_slash_append pfx rest hslash]
  simp only [hexact, hbare, hwild]

/-- Witness for C8: the unexpandable wildcard `custom-provider/*`
(model `"*"`, no known models) matches `custom-provider/custom-model`
at lookup time with `model := custom-model`. -/
theorem c8_wildcard_witness :
    LlmProviders.tryFrom (fun _ => none) [exWildcardProvider] = .ok exLp
    ∧ exLp.get "custom-provider/custom-model"
        = some { exWildcardProvider with model := some "custom-model" } := by
  refine ⟨rfl, ?_⟩
  have h := c8_wildcard_lookup (fun _ => none) [exWildcardProvider] exLp rfl
    "custom-provider" "custom-model" (by decide) exWildcardProvider rfl rfl rfl
  exact h

/-! ## Claim C9 — unknown previous_response_id yields 409 -/

/-- C9: when the gateway manages conversation state for a
responses-API request (responses client, state storage configured,
upstream without native support) and the request carries a
`previous_response_id` the store does not know, phase 2 produces the
409 Conflict response as an early exit — the request is never forwarded
upstream (`earlyResponse`, not `forward`). -/
theorem c9_state_not_found_409 (r : ResponsesReq)
    (store : String → Except StateStorageError (List InputItem))
    (pid eid : String) (hprev : r.previous_response_id = some pid)
    (hstore : store pid = .error (.NotFound eid)) :
    conversationPhase true (.responsesAPIRequest r) true store false
      = .earlyResponse ⟨409, [],
          .text ("Conversation state not found for previous_response_id: " ++ pid)⟩ := by
  simp [conversationPhase, resolveConversationState, retrieveAndCombineInput,
    hprev, hstore]

/-- Witness for C9: chaining to the unknown id `resp_1` over the empty
store is answered 409 and not forwarded. -/
theorem c9_state_not_found_witness :
    conversationPhase true (.responsesAPIRequest exRespReq) true exEmptyStore false
      = .earlyResponse ⟨409, [],
          .text "Conversation state not found for previous_response_id: resp_1"⟩ :=
  c9_state_not_found_409 exRespReq exEmptyStore "resp_1" "resp_1" rfl rfl

end Plano
